import Mathlib

/-!
Verification development for the `simple_unix_shell` repository
(src/simple_unix_shell.c). The C source is shallowly embedded below:
pure string processing functions (`trim`, `split_pipeline`, `parse_args`,
`atoi`) become Lean functions on `List Char`; the effectful parts of
`execute_pipeline` and `run_and_profile` (descriptor bookkeeping, the
foreground-slot register, the polling wait loop, the append step) become
functions producing explicit event traces that transcribe the order of
system calls performed by the parent process.
-/

namespace SimpleUnixShell

/-! ## Tokenizer (src/simple_unix_shell.c lines 29-60) -/

/-- Whitespace set used by `trim` (line 30/32): space, tab, newline. -/
def isTrimWS (c : Char) : Bool := c == ' ' || c == '\t' || c == '\n'

/-- Embedding of `trim` (lines 29-34): removes leading, then trailing
characters in `isTrimWS`.  (The C guard `end > s` never matters because
after the leading loop the first remaining character is not whitespace.) -/
def trim (s : List Char) : List Char :=
  ((s.dropWhile isTrimWS).reverse.dropWhile isTrimWS).reverse

/-- Embedding of POSIX `strtok_r` tokenisation as used in lines 40-44 and
53-56: maximal non-empty runs of non-delimiter characters, with runs of
adjacent delimiters collapsed.  `acc` is the (reversed) token being built. -/
def strtokAux (delim : Char → Bool) : List Char → List Char → List (List Char)
  | [], acc => if acc.isEmpty then [] else [acc.reverse]
  | c :: rest, acc =>
    if delim c then
      if acc.isEmpty then strtokAux delim rest []
      else acc.reverse :: strtokAux delim rest []
    else strtokAux delim rest (c :: acc)

/-- All tokens of `l` under delimiter set `delim`, in order. -/
def strtokSplit (delim : Char → Bool) (l : List Char) : List (List Char) :=
  strtokAux delim l []

/-- The stage delimiter of `split_pipeline` (line 40): `"|"`. -/
def pipeDelim (c : Char) : Bool := c == '|'

/-- The argument delimiters of `parse_args` (line 53): `" \t\n"`. -/
def isArgDelim (c : Char) : Bool := c == ' ' || c == '\t' || c == '\n'

/-- `MAX_COMMANDS` (line 16). -/
def MAX_COMMANDS : Nat := 64

/-- `MAX_TOKENS` (line 15). -/
def MAX_TOKENS : Nat := 512

/-- Embedding of `split_pipeline` (lines 37-46): `strtok_r` on `'|'`,
keeping at most `MAX_COMMANDS` stages, each stage trimmed as it is stored.
The returned list is `commands[0..n-1]`; the C `int` result is its length. -/
def split_pipeline (line : List Char) : List (List Char) :=
  ((strtokSplit pipeDelim line).take MAX_COMMANDS).map trim

/-- Embedding of `parse_args` (lines 49-60): `strtok_r` on `" \t\n"`,
keeping at most `MAX_TOKENS` arguments (the terminating NULL is implicit). -/
def parse_args (cmd : List Char) : List (List Char) :=
  (strtokSplit isArgDelim cmd).take MAX_TOKENS

/-! ## Child-side execution of one stage (lines 82-99, 141-153) -/

/-- What a forked child does after setting up its descriptors: either it
replaces its image via `execvp` (modelled as `execs argv`), or it
terminates with an exit code having written `stderrOut` to standard
error.  There is no constructor for "returns to the caller": `exit`,
`_exit` and a successful `execvp` never return. -/
inductive ChildOutcome
  | exited (code : Nat) (stderrOut : List Char)
  | execs (argv : List (List Char))
deriving DecidableEq

/-- The attributed resolution-failure message of lines 98 and 152:
`fprintf(stderr, "mishell: %s: %s\n", argv[0], strerror(errno))`. -/
def errMsg (name err : List Char) : List Char :=
  "mishell: ".data ++ name ++ ": ".data ++ err ++ ['\n']

/-- Embedding of the pipeline-stage child, lines 93-99: parse the stage,
`exit(0)` when the argument vector is empty, otherwise `execvp`.
`resolveErr = some e` means `execvp` failed with `strerror(errno) = e`;
`none` means resolution succeeded. -/
def pipeline_child (cmd : List Char) (resolveErr : Option (List Char)) : ChildOutcome :=
  match parse_args cmd with
  | [] => ChildOutcome.exited 0 []
  | name :: args =>
    match resolveErr with
    | none => ChildOutcome.execs (name :: args)
    | some e => ChildOutcome.exited 127 (errMsg name e)

/-- Embedding of the profiler child's `execvp` step, lines 151-153
(`run_and_profile`): on resolution failure print the attributed message
and `_exit(127)`. -/
def profile_child_exec (argv : List (List Char)) (resolveErr : Option (List Char)) :
    ChildOutcome :=
  match resolveErr with
  | none => ChildOutcome.execs argv
  | some e => ChildOutcome.exited 127 (errMsg (argv.headD []) e)

/-! ## Parent-side descriptor trace of `execute_pipeline` (lines 63-108)

Channel `i` is the pipe created at the top of loop iteration `i` (it
connects stage `i`'s standard output to stage `i+1`'s standard input).
`pipeLoop r i` transcribes the spawn loop for current stage `i` with `r`
stages remaining (`r = n - i`): when `r = s + 1`, stage `i` is the last
stage iff `s = 0`.  Per iteration the parent performs, in order:
`pipe(pipefd)` when not last (line 71), `fork()` (line 77), then in the
parent branch `close(in_fd)` — the read end of channel `i-1` — when
`i > 0` (line 102), and `close(pipefd[1])` — the write end of channel
`i` — when not last (line 104). -/

/-- One parent-visible descriptor event of `execute_pipeline`. -/
inductive FdEvent
  | pipeCreate (i : Nat)
  | fork (i : Nat)
  | closeRead (i : Nat)
  | closeWrite (i : Nat)
deriving DecidableEq

/-- The parent's event sequence from stage `i` on, with `r` stages left. -/
def pipeLoop : Nat → Nat → List FdEvent
  | 0, _ => []
  | s + 1, i =>
      (if 0 < s then [FdEvent.pipeCreate i] else []) ++
      [FdEvent.fork i] ++
      (if 0 < i then [FdEvent.closeRead (i - 1)] else []) ++
      (if 0 < s then [FdEvent.closeWrite i] else []) ++
      pipeLoop s (i + 1)

/-- The full parent descriptor trace of `execute_pipeline` over an
`n`-stage pipeline (spawn loop, lines 68-108). -/
def parentTrace (n : Nat) : List FdEvent := pipeLoop n 0

/-- Strict occurrence order in a trace: `a` occurs (somewhere) before a
later occurrence of `b`. -/
def eventBefore {α : Type} (l : List α) (a b : α) : Prop :=
  ∃ l₁ l₂ l₃, l = l₁ ++ a :: (l₂ ++ b :: l₃)

/-! ## Foreground-slot trace of the wait loop (lines 110-117, 156, 214) -/

/-- One event touching the global `current_child` register during the
wait phase of `execute_pipeline`: `set i` is `current_child = pids[i]`
(line 113), `wait i` is the return of `waitpid(pids[i], ...)` (line 114),
`clear` is `current_child = 0` (line 116). -/
inductive SlotEvent
  | set (i : Nat)
  | wait (i : Nat)
  | clear
deriving DecidableEq

/-- The wait loop from stage `i` with `r` stages remaining, followed by
the single `current_child = 0` after the loop (lines 112-116). -/
def waitLoopFrom : Nat → Nat → List SlotEvent
  | 0, _ => [SlotEvent.clear]
  | r + 1, i => SlotEvent.set i :: SlotEvent.wait i :: waitLoopFrom r (i + 1)

/-- The whole wait phase of `execute_pipeline` over `n` stages. -/
def waitPhase (n : Nat) : List SlotEvent := waitLoopFrom n 0

/-- Effect of one slot event on the `current_child` register; `none`
models the cleared value `0`, `some i` models "holds stage `i`'s pid". -/
def slotStep (s : Option Nat) : SlotEvent → Option Nat
  | SlotEvent.set i => some i
  | SlotEvent.wait _ => s
  | SlotEvent.clear => none

/-- The register's value after a sequence of slot events. -/
def slotAfter (s : Option Nat) (l : List SlotEvent) : Option Nat :=
  l.foldl slotStep s

/-- Embedding of the status accumulation of the wait loop (lines
111-117): `int status = 0;` then each `waitpid(pids[i], &status, 0)`
overwrites `status` with stage `i`'s termination status; the function
returns the final value.  `statuses` lists the per-stage wait statuses in
spawn order. -/
def execute_wait_status (statuses : List Int) : Int :=
  statuses.foldl (fun _ s => s) 0

/-! ## Profiler wait phase of `run_and_profile` (lines 156-176) -/

/-- Raw `waitpid` status: normal exit with a code, or termination by a
signal (`WIFEXITED` false). -/
inductive WStatus
  | exited (code : Nat)
  | signaled (sig : Nat)
deriving DecidableEq

/-- Signal number of `SIGKILL`. -/
def SIGKILL : Nat := 9

/-- One parent action in the wait phase of `run_and_profile`:
`pollNohang k` is the `waitpid(pid, &status, WNOHANG)` issued after `k`
whole seconds (line 163), `sleepOne` is `sleep(1)` (line 171),
`killChild s` is `kill(pid, s)` (line 167), `blockingWait` is a plain
`waitpid(pid, &status, 0)` (lines 168 and 175). -/
inductive WaitAction
  | pollNohang (atSecond : Nat)
  | sleepOne
  | killChild (sig : Nat)
  | blockingWait
deriving DecidableEq

/-- The polling loop of lines 161-173, for a child that the non-blocking
poll first observes as terminated at second `T` with status `st`.
The fuel argument is `timeout_seconds - waited`, so the branch taken at
fuel `0` is the `waited >= timeout_seconds` branch (lines 166-169):
`kill(pid, SIGKILL)` followed by one final blocking `waitpid`.  At
positive fuel, a failed poll is followed by `sleep(1); waited++`.
(The `waitpid == -1` error branch of line 165 cannot fire for a live,
unreaped child and is not modelled.) -/
def profile_wait_loop (T : Nat) (st : WStatus) : Nat → Nat → List WaitAction × WStatus
  | 0, waited =>
    if T ≤ waited then ([WaitAction.pollNohang waited], st)
    else ([WaitAction.pollNohang waited, WaitAction.killChild SIGKILL,
           WaitAction.blockingWait],
          WStatus.signaled SIGKILL)
  | r + 1, waited =>
    if T ≤ waited then ([WaitAction.pollNohang waited], st)
    else
      let rest := profile_wait_loop T st r (waited + 1)
      (WaitAction.pollNohang waited :: WaitAction.sleepOne :: rest.1, rest.2)

/-- The wait phase of `run_and_profile` (lines 158-176): the polling loop
when `timeout_seconds > 0`, otherwise one plain blocking `waitpid`. -/
def profile_wait (T : Nat) (st : WStatus) (timeout_seconds : Int) :
    List WaitAction × WStatus :=
  if 0 < timeout_seconds then profile_wait_loop T st timeout_seconds.toNat 0
  else ([WaitAction.blockingWait], st)

/-- The expected poll/sleep alternation: polls at seconds `w`,
`w+1`, ..., `w+d-1`, each followed by one `sleep(1)`. -/
def pollTrace : Nat → Nat → List WaitAction
  | _, 0 => []
  | w, d + 1 => WaitAction.pollNohang w :: WaitAction.sleepOne :: pollTrace (w + 1) d

/-- The `ExitStatus` field of the summary (line 190):
`WIFEXITED(status) ? WEXITSTATUS(status) : -1`. -/
def summary_exit : WStatus → Int
  | WStatus.exited code => (code : Int)
  | WStatus.signaled _ => -1

/-! ## Output phase of `run_and_profile` (lines 186-215) -/

/-- Parent actions of the output phase: `reportError` is `perror`
(line 196), `writeTarget` is a write to the `ejecsave` target descriptor
(lines 198-204), `writeStdout` is the terminal summary write (line 211),
`closeTmp`/`unlinkTmp` are lines 207-208, `clearSlot` is
`current_child = 0` (line 214). -/
inductive OutAction
  | reportError (tag : List Char)
  | writeTarget (bytes : List Char)
  | writeStdout (bytes : List Char)
  | closeTmp
  | unlinkTmp
  | clearSlot
deriving DecidableEq

/-- The `perror` tag of line 196. -/
def openErrTag : List Char := "abrir archivo de salida".data

/-- The `---- miprof append: <command> ----` header line (line 198). -/
def miprof_header (cmdName : List Char) : List Char :=
  "---- miprof append: ".data ++ cmdName ++ " ----\n".data

/-- Embedding of lines 192-215 of `run_and_profile`, after the child has
been reaped with status `st` and the summary bytes have been formatted.
`openOk` tells whether `open(filename, O_WRONLY|O_CREAT|O_APPEND, 0644)`
succeeded (line 194).  On the save path the temporary capture file always
gets closed and unlinked (lines 207-208), and the function returns `st`
(line 215) regardless of the outcome of the output step. -/
def run_profile_finish (save_to_file openOk : Bool)
    (cmdName captured summary : List Char) (st : WStatus) :
    List OutAction × WStatus :=
  if save_to_file then
    if openOk then
      ([OutAction.writeTarget (miprof_header cmdName),
        OutAction.writeTarget captured,
        OutAction.writeTarget summary,
        OutAction.writeTarget ['\n'],
        OutAction.closeTmp, OutAction.unlinkTmp, OutAction.clearSlot], st)
    else
      ([OutAction.reportError openErrTag,
        OutAction.closeTmp, OutAction.unlinkTmp, OutAction.clearSlot], st)
  else
    ([OutAction.writeStdout summary, OutAction.clearSlot], st)

/-- The bytes an action sequence writes to the `ejecsave` target file. -/
def targetWrites (acts : List OutAction) : List Char :=
  acts.flatMap fun a =>
    match a with
    | OutAction.writeTarget b => b
    | _ => []

/-- Content of the target file after the output phase.  The file was
opened with `O_WRONLY | O_CREAT | O_APPEND` and no `O_TRUNC` (line 194),
so its prior content `prior` stays in place and all writes land after it;
a file that did not exist is created, which is the case `prior = []`. -/
def fileAfter (prior : List Char) (acts : List OutAction) : List Char :=
  prior ++ targetWrites acts

/-! ## `miprof` dispatch in `handle_single_command` (lines 233-263) and `atoi` -/

/-- The `isspace` set consulted by C `atoi`. -/
def isAtoiSpace (c : Char) : Bool :=
  c == ' ' || c == '\t' || c == '\n' || c == '\r' || c == '\x0b' || c == '\x0c'

/-- Decimal digits consumed by `atoi`, most significant first; stops at
the first non-digit. -/
def atoiDigits : List Char → Nat → Nat
  | [], acc => acc
  | c :: rest, acc =>
    if c.isDigit then atoiDigits rest (acc * 10 + (c.toNat - '0'.toNat)) else acc

/-- Embedding of C `atoi` as called on `argv[2]` at line 254: skip
leading whitespace, optional sign, then leading digits; any string with
no leading digits yields `0`.  (Overflow of the C `int` is not modelled;
the inputs of interest are small.) -/
def atoi (s : List Char) : Int :=
  match s.dropWhile isAtoiSpace with
  | '-' :: rest => -(atoiDigits rest 0 : Int)
  | '+' :: rest => (atoiDigits rest 0 : Int)
  | rest => (atoiDigits rest 0 : Int)

/-- Result of the `miprof` argument dispatch: either a usage/diagnostic
message on standard error and no execution, or a call
`run_and_profile(cmd, save, file, timeout)`. -/
inductive MiprofDispatch
  | usage (msg : List Char)
  | run (cmd : List (List Char)) (save : Bool) (file : Option (List Char)) (timeout : Int)
deriving DecidableEq

/-- Embedding of the `miprof` branch of `handle_single_command`
(lines 233-263), applied to `argv[1], argv[2], ...` (everything after the
word `miprof`). -/
def miprof_dispatch (rest : List (List Char)) : MiprofDispatch :=
  match rest with
  | [] => MiprofDispatch.usage
      "uso: miprof [ejec|ejcsave archivo|maxtiempo segs] comando args...".data
  | mode :: rest2 =>
    if mode = "ejec".data then
      match rest2 with
      | [] => MiprofDispatch.usage "no se indicó comando para ejec".data
      | cmd => MiprofDispatch.run cmd false none 0
    else if mode = "ejecsave".data then
      match rest2 with
      | file :: c :: cmdrest => MiprofDispatch.run (c :: cmdrest) true (some file) 0
      | _ => MiprofDispatch.usage "uso: miprof ejecsave archivo comando args...".data
    else if mode = "maxtiempo".data then
      match rest2 with
      | s :: c :: cmdrest => MiprofDispatch.run (c :: cmdrest) false none (atoi s)
      | _ => MiprofDispatch.usage "uso: miprof maxtiempo segs comando args...".data
    else MiprofDispatch.usage ("miprof: modo desconocido ".data ++ mode)

/-! ### Tokenizer lemmas -/

/-- Every token emitted by the `strtok_r` embedding is non-empty. -/
theorem strtokAux_ne_nil (delim : Char → Bool) :
    ∀ (l acc t : List Char), t ∈ strtokAux delim l acc → t ≠ [] := by
  intro l
  induction l with
  | nil =>
    intro acc t ht
    by_cases h : acc.isEmpty
    · simp [strtokAux, h] at ht
    · simp [strtokAux, h] at ht
      subst ht
      simpa [List.isEmpty_iff] using h
  | cons c rest ih =>
    intro acc t ht
    by_cases hd : delim c
    · by_cases h : acc.isEmpty
      · exact ih [] t (by simpa [strtokAux, hd, h] using ht)
      · simp [strtokAux, hd, h] at ht
        rcases ht with ht | ht
        · subst ht
          simpa [List.isEmpty_iff] using h
        · exact ih [] t ht
    · exact ih (c :: acc) t (by simpa [strtokAux, hd] using ht)

/-- A list all of whose characters are trim-whitespace is dropped to `[]`
by `dropWhile isTrimWS`. -/
theorem dropWhile_trimWS_eq_nil :
    ∀ (t : List Char), (∀ c ∈ t, isTrimWS c = true) → t.dropWhile isTrimWS = [] := by
  intro t ht
  simpa using ht

/-- `trim` of an all-whitespace stage is the empty string. -/
theorem trim_all_ws (t : List Char) (h : ∀ c ∈ t, isTrimWS c = true) :
    trim t = [] := by
  unfold trim
  rw [dropWhile_trimWS_eq_nil t h]
  rfl

/-! ### Trace lemmas for the spawn and wait loops -/

/-- The spawn-loop trace decomposes at any intermediate stage. -/
theorem pipeLoop_split : ∀ (d r k : Nat), ∃ P, pipeLoop (d + r) k = P ++ pipeLoop r (k + d) := by
  intro d
  induction d with
  | zero => intro r k; exact ⟨[], by simp⟩
  | succ d ih =>
    intro r k
    obtain ⟨P', hP'⟩ := ih r (k + 1)
    have e2 : k + 1 + d = k + (d + 1) := by omega
    rw [e2] at hP'
    refine ⟨(if 0 < d + r then [FdEvent.pipeCreate k] else []) ++ [FdEvent.fork k] ++
            (if 0 < k then [FdEvent.closeRead (k - 1)] else []) ++
            (if 0 < d + r then [FdEvent.closeWrite k] else []) ++ P', ?_⟩
    have e1 : d + 1 + r = (d + r) + 1 := by omega
    rw [e1]
    simp [pipeLoop, hP', List.append_assoc]

/-- The wait-loop trace decomposes at any intermediate stage, and the
slot value accumulated over the skipped prefix is the pid of the stage
waited on last within it. -/
theorem waitLoop_split : ∀ (d r k : Nat), ∃ pre,
    waitLoopFrom (d + r) k = pre ++ waitLoopFrom r (k + d)
    ∧ ∀ s, slotAfter s pre = if d = 0 then s else some (k + d - 1) := by
  intro d
  induction d with
  | zero =>
    intro r k
    exact ⟨[], by simp, fun s => by simp [slotAfter]⟩
  | succ d ih =>
    intro r k
    obtain ⟨pre', h1, h2⟩ := ih r (k + 1)
    have e2 : k + 1 + d = k + (d + 1) := by omega
    rw [e2] at h1
    refine ⟨SlotEvent.set k :: SlotEvent.wait k :: pre', ?_, ?_⟩
    · have e1 : d + 1 + r = (d + r) + 1 := by omega
      rw [e1]
      simp [waitLoopFrom, h1]
    · intro s
      have hstep : slotAfter s (SlotEvent.set k :: SlotEvent.wait k :: pre')
          = slotAfter (some k) pre' := by simp [slotAfter, slotStep]
      rw [hstep, h2 (some k)]
      rcases Nat.eq_zero_or_pos d with hd | hd
      · subst hd; simp
      · have hd' : ¬ d = 0 := by omega
        simp [hd']

/-- Evaluating the slot across an event-list concatenation. -/
theorem slotAfter_append (s : Option Nat) (l₁ l₂ : List SlotEvent) :
    slotAfter s (l₁ ++ l₂) = slotAfter (slotAfter s l₁) l₂ := by
  simp [slotAfter]

/-- After the whole wait phase the slot is always cleared. -/
theorem slotAfter_waitLoopFrom : ∀ (r k : Nat) (s : Option Nat),
    slotAfter s (waitLoopFrom r k) = none := by
  intro r
  induction r with
  | zero => intro k s; simp [waitLoopFrom, slotAfter, slotStep]
  | succ r ih =>
    intro k s
    have hstep : slotAfter s (waitLoopFrom (r + 1) k)
        = slotAfter (some k) (waitLoopFrom r (k + 1)) := by
      simp [waitLoopFrom, slotAfter, slotStep]
    rw [hstep]
    exact ih (k + 1) (some k)

/-- Every stage index below `n` is forked by the spawn loop. -/
theorem fork_mem_parentTrace : ∀ (n i : Nat), i < n → FdEvent.fork i ∈ parentTrace n := by
  intro n i h
  obtain ⟨P, hP⟩ := pipeLoop_split i (n - i) 0
  have e : i + (n - i) = n := by omega
  rw [e] at hP
  have e0 : 0 + i = i := by omega
  rw [e0] at hP
  obtain ⟨m, hm⟩ : ∃ m, n - i = m + 1 := ⟨n - i - 1, by omega⟩
  rw [hm] at hP
  unfold parentTrace
  rw [hP]
  simp [pipeLoop]

/-- Every stage index below `n` is waited on by the wait loop. -/
theorem wait_mem_waitPhase : ∀ (n i : Nat), i < n → SlotEvent.wait i ∈ waitPhase n := by
  intro n i h
  obtain ⟨pre, h1, -⟩ := waitLoop_split i (n - i) 0
  have e : i + (n - i) = n := by omega
  rw [e] at h1
  have e0 : 0 + i = i := by omega
  rw [e0] at h1
  obtain ⟨m, hm⟩ : ∃ m, n - i = m + 1 := ⟨n - i - 1, by omega⟩
  rw [hm] at h1
  unfold waitPhase
  rw [h1]
  simp [waitLoopFrom]

/-! ## Claim C1 -/

/-- C1 (counterexample): the claim states that a stage that is empty
between two adjacent stage delimiters is passed through as an empty
string occupying its pipeline position, so `"a||b"` would have to yield
the three stages `["a", "", "b"]`.  The code's `strtok_r`-based
`split_pipeline` collapses adjacent delimiters: it yields only two
stages, and no empty stage at all. -/
theorem C1_counterexample :
    split_pipeline ['a', '|', '|', 'b'] = [['a'], ['b']]
    ∧ (split_pipeline ['a', '|', '|', 'b']).length = 2
    ∧ [] ∉ split_pipeline ['a', '|', '|', 'b'] := by decide

/-- C1 (amended): `split_pipeline` never produces a stage from a
zero-length segment between adjacent delimiters — every raw `strtok_r`
token is non-empty, so an empty stage in the output can only come from a
non-empty, all-whitespace token, which `trim` reduces to the empty string
while it keeps its pipeline position (e.g. `"a| |b"` yields
`["a", "", "b"]`, and such a stage later yields an empty argument
vector). -/
theorem C1_empty_stage_handling :
    (∀ (line t : List Char), t ∈ strtokSplit pipeDelim line → t ≠ [])
    ∧ (∀ (t : List Char), (∀ c ∈ t, isTrimWS c = true) → trim t = [])
    ∧ (∀ (line : List Char), [] ∈ split_pipeline line →
        ∃ t, t ∈ strtokSplit pipeDelim line ∧ t ≠ [] ∧ trim t = [])
    ∧ split_pipeline ['a', '|', ' ', '|', 'b'] = [['a'], [], ['b']] := by
  refine ⟨fun line t ht => strtokAux_ne_nil pipeDelim line [] t ht, trim_all_ws, ?_, by decide⟩
  intro line h
  unfold split_pipeline at h
  obtain ⟨t, htake, htrim⟩ := List.mem_map.1 h
  exact ⟨t, List.mem_of_mem_take htake,
    strtokAux_ne_nil pipeDelim line [] t (List.mem_of_mem_take htake), htrim⟩

/-- C1 witness: instantiates `C1_empty_stage_handling` on a concrete
tokenisation. -/
theorem C1_witness : (['a'] : List Char) ≠ [] :=
  C1_empty_stage_handling.1 ['a'] ['a'] (by decide)

/-! ## Claim C2 -/

/-- C2 (counterexample): in a two-stage pipeline, the parent closes the
write end of channel 0 (between stage 0 and stage 1) among its first
three actions, before process 1 is ever forked — not "right after forking
process i+1" as the claim states. -/
theorem C2_counterexample :
    parentTrace 2 = [FdEvent.pipeCreate 0, FdEvent.fork 0, FdEvent.closeWrite 0,
      FdEvent.fork 1, FdEvent.closeRead 0]
    ∧ (parentTrace 2).take 3 = [FdEvent.pipeCreate 0, FdEvent.fork 0, FdEvent.closeWrite 0]
    ∧ FdEvent.fork 1 ∉ (parentTrace 2).take 3 := by decide

/-- C2 (amended): the parent closes the write end of the channel between
stage `i` and stage `i+1` right after forking process `i` — the stage
that duplicated that end — and before forking process `i+1`; the read end
of that channel is closed right after forking process `i+1`; and both
ends the parent created are closed by the parent during the spawn loop. -/
theorem C2_parent_close_order :
    ∀ (n i : Nat), i + 1 < n →
      eventBefore (parentTrace n) (FdEvent.fork i) (FdEvent.closeWrite i)
      ∧ eventBefore (parentTrace n) (FdEvent.closeWrite i) (FdEvent.fork (i + 1))
      ∧ eventBefore (parentTrace n) (FdEvent.fork (i + 1)) (FdEvent.closeRead i)
      ∧ FdEvent.closeWrite i ∈ parentTrace n
      ∧ FdEvent.closeRead i ∈ parentTrace n := by
  intro n i h
  obtain ⟨P, hP⟩ := pipeLoop_split i (n - i) 0
  have e : i + (n - i) = n := by omega
  rw [e] at hP
  have e0 : 0 + i = i := by omega
  rw [e0] at hP
  obtain ⟨m, hm⟩ : ∃ m, n - i = m + 2 := ⟨n - i - 2, by omega⟩
  rw [hm] at hP
  have htr : parentTrace n = P ++ ([FdEvent.pipeCreate i] ++ [FdEvent.fork i]
      ++ (if 0 < i then [FdEvent.closeRead (i - 1)] else [])
      ++ [FdEvent.closeWrite i]
      ++ (if 0 < m then [FdEvent.pipeCreate (i + 1)] else [])
      ++ [FdEvent.fork (i + 1)] ++ [FdEvent.closeRead i]
      ++ (if 0 < m then [FdEvent.closeWrite (i + 1)] else [])
      ++ pipeLoop m (i + 2)) := by
    unfold parentTrace
    rw [hP]
    congr 1
    simp [pipeLoop, List.append_assoc]
  refine ⟨?_, ?_, ?_, ?_, ?_⟩
  · exact ⟨P ++ [FdEvent.pipeCreate i],
      (if 0 < i then [FdEvent.closeRead (i - 1)] else []),
      (if 0 < m then [FdEvent.pipeCreate (i + 1)] else [])
        ++ [FdEvent.fork (i + 1)] ++ [FdEvent.closeRead i]
        ++ (if 0 < m then [FdEvent.closeWrite (i + 1)] else [])
        ++ pipeLoop m (i + 2),
      by rw [htr]; simp [List.append_assoc]⟩
  · exact ⟨P ++ [FdEvent.pipeCreate i] ++ [FdEvent.fork i]
        ++ (if 0 < i then [FdEvent.closeRead (i - 1)] else []),
      (if 0 < m then [FdEvent.pipeCreate (i + 1)] else []),
      [FdEvent.closeRead i]
        ++ (if 0 < m then [FdEvent.closeWrite (i + 1)] else [])
        ++ pipeLoop m (i + 2),
      by rw [htr]; simp [List.append_assoc]⟩
  · exact ⟨P ++ [FdEvent.pipeCreate i] ++ [FdEvent.fork i]
        ++ (if 0 < i then [FdEvent.closeRead (i - 1)] else [])
        ++ [FdEvent.closeWrite i]
        ++ (if 0 < m then [FdEvent.pipeCreate (i + 1)] else []),
      [],
      (if 0 < m then [FdEvent.closeWrite (i + 1)] else []) ++ pipeLoop m (i + 2),
      by rw [htr]; simp [List.append_assoc]⟩
  · rw [htr]; simp
  · rw [htr]; simp

/-- C2 witness: `C2_parent_close_order` instantiated on a two-stage
pipeline. -/
theorem C2_witness :
    eventBefore (parentTrace 2) (FdEvent.fork 0) (FdEvent.closeWrite 0)
    ∧ eventBefore (parentTrace 2) (FdEvent.closeWrite 0) (FdEvent.fork 1)
    ∧ eventBefore (parentTrace 2) (FdEvent.fork 1) (FdEvent.closeRead 0)
    ∧ FdEvent.closeWrite 0 ∈ parentTrace 2
    ∧ FdEvent.closeRead 0 ∈ parentTrace 2 :=
  C2_parent_close_order 2 0 (by decide)

/-! ## Claim C3 -/

/-- C3 (counterexample): in a two-stage pipeline, immediately after the
wait on stage 0 returns (the first two slot events), the Foreground Slot
still holds stage 0's — already reaped — process identifier; it is not
cleared after that wait as the claim states (the code only clears it once,
after the whole loop). -/
theorem C3_counterexample :
    waitPhase 2 = [SlotEvent.set 0, SlotEvent.wait 0, SlotEvent.set 1,
      SlotEvent.wait 1, SlotEvent.clear]
    ∧ (waitPhase 2).take 2 = [SlotEvent.set 0, SlotEvent.wait 0]
    ∧ slotAfter none ((waitPhase 2).take 2) = some 0 := by decide

/-- C3 (amended): during `execute_pipeline`, the Foreground Slot is set
to stage `i`'s pid immediately before the wait on stage `i`; it is still
`some i` right after that wait returns (so between consecutive waits it
briefly points at the just-reaped stage, and just before `set i` with
`i > 0` it still holds stage `i-1`); it is `none` before the first set
and is cleared exactly once, after the last wait of the call. -/
theorem C3_foreground_slot :
    ∀ (n i : Nat), i < n →
      ∃ pre suf,
        waitPhase n = pre ++ SlotEvent.set i :: SlotEvent.wait i :: suf
        ∧ slotAfter none (pre ++ [SlotEvent.set i]) = some i
        ∧ slotAfter none (pre ++ [SlotEvent.set i, SlotEvent.wait i]) = some i
        ∧ (i = 0 → slotAfter none pre = none)
        ∧ (0 < i → slotAfter none pre = some (i - 1))
        ∧ slotAfter none (waitPhase n) = none := by
  intro n i h
  obtain ⟨pre, h1, h2⟩ := waitLoop_split i (n - i) 0
  have e : i + (n - i) = n := by omega
  rw [e] at h1
  have e0 : 0 + i = i := by omega
  rw [e0] at h1
  obtain ⟨m, hm⟩ : ∃ m, n - i = m + 1 := ⟨n - i - 1, by omega⟩
  rw [hm] at h1
  refine ⟨pre, waitLoopFrom m (i + 1), ?_, ?_, ?_, ?_, ?_, ?_⟩
  · unfold waitPhase
    rw [h1]
    simp [waitLoopFrom]
  · rw [slotAfter_append]
    simp [slotAfter, slotStep]
  · rw [slotAfter_append]
    simp [slotAfter, slotStep]
  · intro h0
    rw [h2 none]
    simp [h0]
  · intro h0
    have h0' : ¬ i = 0 := by omega
    rw [h2 none]
    simp [h0']
  · exact slotAfter_waitLoopFrom n 0 none

/-- C3 witness: `C3_foreground_slot` instantiated at the second stage of
a two-stage pipeline. -/
theorem C3_witness :
    ∃ pre suf,
      waitPhase 2 = pre ++ SlotEvent.set 1 :: SlotEvent.wait 1 :: suf
      ∧ slotAfter none (pre ++ [SlotEvent.set 1]) = some 1
      ∧ slotAfter none (pre ++ [SlotEvent.set 1, SlotEvent.wait 1]) = some 1
      ∧ (1 = 0 → slotAfter none pre = none)
      ∧ (0 < 1 → slotAfter none pre = some (1 - 1))
      ∧ slotAfter none (waitPhase 2) = none :=
  C3_foreground_slot 2 1 (by decide)

/-! ## Claim C4 -/

/-- C4: the wait loop of `execute_pipeline` overwrites the single
`status` variable at every wait, so the returned value is exactly the
status of the final wait — the last stage's termination status — whatever
the earlier stages reported; in particular a single-stage pipeline
returns that one command's own wait status. -/
theorem C4_last_stage_status :
    ∀ (pre : List Int) (s : Int),
      execute_wait_status (pre ++ [s]) = s ∧ execute_wait_status [s] = s := by
  intro pre s
  constructor
  · unfold execute_wait_status
    rw [List.foldl_append]
    rfl
  · rfl

/-- C4 witness: a failing first stage (raw status 256) is absorbed and
the last stage's status 7 is returned; a single-stage pipeline returns
its command's status. -/
theorem C4_witness :
    execute_wait_status ([256] ++ [7]) = 7 ∧ execute_wait_status [7] = 7 :=
  C4_last_stage_status [256] 7

/-! ## Claim C9 -/

/-- C9: a stage whose argument vector is empty is a no-op — the child
checks `argv[0] == NULL` before `execvp` and exits with status 0, never
attempting resolution or execution — yet the stage is still forked and
waited on at its pipeline position like any other stage. -/
theorem C9_empty_argv_noop :
    ∀ (cmd : List Char) (e : Option (List Char)) (n i : Nat),
      parse_args cmd = [] → i < n →
        pipeline_child cmd e = ChildOutcome.exited 0 []
        ∧ (∀ a, pipeline_child cmd e ≠ ChildOutcome.execs a)
        ∧ FdEvent.fork i ∈ parentTrace n
        ∧ SlotEvent.wait i ∈ waitPhase n := by
  intro cmd e n i hp hin
  have hc : pipeline_child cmd e = ChildOutcome.exited 0 [] := by
    unfold pipeline_child
    rw [hp]
  exact ⟨hc, fun a => by rw [hc]; simp, fork_mem_parentTrace n i hin,
    wait_mem_waitPhase n i hin⟩

/-- C9 witness: the all-whitespace stage `" "` parses to an empty
argument vector and its child exits 0 without executing anything, while
the stage is still forked and waited on. -/
theorem C9_witness :
    pipeline_child [' '] none = ChildOutcome.exited 0 []
    ∧ (∀ a, pipeline_child [' '] none ≠ ChildOutcome.execs a)
    ∧ FdEvent.fork 0 ∈ parentTrace 1
    ∧ SlotEvent.wait 0 ∈ waitPhase 1 :=
  C9_empty_argv_noop [' '] none 1 0 (by decide) (by decide)

/-! ### Profiler wait-loop lemmas -/

/-- If the child is first seen terminated at second `T = w + d` and the
kill deadline is at least `d` polls away, the loop reaps it normally:
`d` failed polls each followed by one `sleep(1)`, then the successful
poll at second `T`, returning the child's own status. -/
theorem profile_wait_loop_reaps :
    ∀ (T : Nat) (st : WStatus) (d r w : Nat), T = w + d → d ≤ r →
      profile_wait_loop T st r w
        = (pollTrace w d ++ [WaitAction.pollNohang T], st) := by
  intro T st d
  induction d with
  | zero =>
    intro r w hT hd
    subst hT
    cases r with
    | zero => simp [profile_wait_loop, pollTrace]
    | succ r => simp [profile_wait_loop, pollTrace]
  | succ d ih =>
    intro r w hT hd
    obtain ⟨r', rfl⟩ : ∃ r', r = r' + 1 := ⟨r - 1, by omega⟩
    have h1 : ¬ T ≤ w := by omega
    have hrec := ih r' (w + 1) (by omega) (by omega)
    simp [profile_wait_loop, h1, hrec, pollTrace]

/-- If the child is still unreaped when `waited` reaches the deadline
(fuel exhausted at second `w + r < T`), the loop performs its polls and
sleeps, then a final failed poll at the deadline, `kill(pid, SIGKILL)`,
and one blocking `waitpid`, returning a SIGKILL termination status. -/
theorem profile_wait_loop_kills :
    ∀ (T : Nat) (st : WStatus) (r w : Nat), w + r < T →
      profile_wait_loop T st r w
        = (pollTrace w r
            ++ [WaitAction.pollNohang (w + r), WaitAction.killChild SIGKILL,
                WaitAction.blockingWait],
           WStatus.signaled SIGKILL) := by
  intro T st r
  induction r with
  | zero =>
    intro w h
    have h1 : ¬ T ≤ w := by omega
    simp [profile_wait_loop, h1, pollTrace]
  | succ r ih =>
    intro w h
    have h1 : ¬ T ≤ w := by omega
    have hrec := ih (w + 1) (by omega)
    have e : w + 1 + r = w + (r + 1) := by omega
    rw [e] at hrec
    simp [profile_wait_loop, h1, hrec, pollTrace]

/-- The poll/sleep alternation contains no kill. -/
theorem killChild_not_mem_pollTrace :
    ∀ (d w sig : Nat), WaitAction.killChild sig ∉ pollTrace w d := by
  intro d
  induction d with
  | zero => intro w sig; simp [pollTrace]
  | succ d ih =>
    intro w sig
    simp [pollTrace]
    exact ih (w + 1) sig

/-! ## Claim C5 -/

/-- C5: with `timeoutSeconds > 0` the parent polls non-blockingly once
per second (each failed poll is followed by exactly one `sleep(1)`).  A
child still unreaped at the poll made once `timeoutSeconds` whole seconds
have elapsed is killed with SIGKILL — non-ignorable — and reaped by one
final blocking wait, and the resulting status is a SIGKILL termination,
which the summary records as the non-exit sentinel `-1`.  A child whose
termination is observed at or before the deadline is reaped by a
successful poll and is never killed. -/
theorem C5_timeout_polling :
    ∀ (T : Nat) (st : WStatus) (secs : Int), 0 < secs →
      (secs.toNat < T →
        profile_wait T st secs
          = (pollTrace 0 secs.toNat
              ++ [WaitAction.pollNohang secs.toNat, WaitAction.killChild SIGKILL,
                  WaitAction.blockingWait],
             WStatus.signaled SIGKILL)
        ∧ summary_exit (profile_wait T st secs).2 = -1)
      ∧ (T ≤ secs.toNat →
        profile_wait T st secs = (pollTrace 0 T ++ [WaitAction.pollNohang T], st)
        ∧ ∀ sig, WaitAction.killChild sig ∉ (profile_wait T st secs).1) := by
  intro T st secs hs
  have hw : profile_wait T st secs = profile_wait_loop T st secs.toNat 0 := by
    unfold profile_wait
    rw [if_pos hs]
  constructor
  · intro hT
    have hk := profile_wait_loop_kills T st secs.toNat 0 (by omega)
    rw [Nat.zero_add] at hk
    refine ⟨by rw [hw]; exact hk, ?_⟩
    rw [hw, hk]
    rfl
  · intro hT
    have hr := profile_wait_loop_reaps T st T secs.toNat 0 (by omega) (by omega)
    refine ⟨by rw [hw]; exact hr, ?_⟩
    intro sig
    rw [hw, hr]
    simp [List.mem_append, killChild_not_mem_pollTrace]

/-- C5 witness: a child outliving a 1-second timeout is polled at seconds
0 and 1 and then killed; a child observed terminated at second 1 under a
2-second timeout is reaped without any kill. -/
theorem C5_witness :
    profile_wait 3 (WStatus.exited 0) 1
      = ([WaitAction.pollNohang 0, WaitAction.sleepOne, WaitAction.pollNohang 1,
          WaitAction.killChild SIGKILL, WaitAction.blockingWait],
         WStatus.signaled SIGKILL)
    ∧ profile_wait 1 (WStatus.exited 0) 2
      = ([WaitAction.pollNohang 0, WaitAction.sleepOne, WaitAction.pollNohang 1],
         WStatus.exited 0) := by
  constructor
  · have h := (C5_timeout_polling 3 (WStatus.exited 0) 1 (by decide)).1 (by decide)
    rw [h.1]
    rfl
  · have h := (C5_timeout_polling 1 (WStatus.exited 0) 2 (by decide)).2 (by decide)
    rw [h.1]
    rfl

/-! ## Claim C6 -/

/-- C6: when the `ejecsave` target opens successfully, the bytes written
to it are exactly the header line `---- miprof append: <command> ----`,
the captured output verbatim, the formatted summary, and a final blank
line; they are appended after the file's prior content, which is
preserved unchanged (an absent file is created, holding just the block),
and the child's status is still returned. -/
theorem C6_ejecsave_append_block :
    ∀ (prior cmdName captured summary : List Char) (st : WStatus),
      fileAfter prior (run_profile_finish true true cmdName captured summary st).1
        = prior ++ ("---- miprof append: ".data ++ cmdName ++ " ----\n".data)
          ++ captured ++ summary ++ ['\n']
      ∧ (∃ rest, fileAfter prior (run_profile_finish true true cmdName captured summary st).1
          = prior ++ rest)
      ∧ fileAfter [] (run_profile_finish true true cmdName captured summary st).1
        = ("---- miprof append: ".data ++ cmdName ++ " ----\n".data)
          ++ captured ++ summary ++ ['\n']
      ∧ (run_profile_finish true true cmdName captured summary st).2 = st := by
  intro prior cmdName captured summary st
  refine ⟨?_, ⟨targetWrites (run_profile_finish true true cmdName captured summary st).1,
    rfl⟩, ?_, rfl⟩
  · simp [fileAfter, targetWrites, run_profile_finish, miprof_header, List.append_assoc]
  · simp [fileAfter, targetWrites, run_profile_finish, miprof_header, List.append_assoc]

/-- C6 witness: `C6_ejecsave_append_block` on a concrete prior content,
command, capture and summary. -/
theorem C6_witness :
    fileAfter ['x'] (run_profile_finish true true ['l', 's'] ['o'] ['s']
        (WStatus.exited 0)).1
      = ['x'] ++ ("---- miprof append: ".data ++ ['l', 's'] ++ " ----\n".data)
        ++ ['o'] ++ ['s'] ++ ['\n']
    ∧ (∃ rest, fileAfter ['x'] (run_profile_finish true true ['l', 's'] ['o'] ['s']
        (WStatus.exited 0)).1 = ['x'] ++ rest)
    ∧ fileAfter [] (run_profile_finish true true ['l', 's'] ['o'] ['s']
        (WStatus.exited 0)).1
      = ("---- miprof append: ".data ++ ['l', 's'] ++ " ----\n".data)
        ++ ['o'] ++ ['s'] ++ ['\n']
    ∧ (run_profile_finish true true ['l', 's'] ['o'] ['s'] (WStatus.exited 0)).2
      = WStatus.exited 0 :=
  C6_ejecsave_append_block ['x'] ['l', 's'] ['o'] ['s'] (WStatus.exited 0)

/-! ## Claim C7 -/

/-- C7: when `execvp` fails to resolve the executable, the child —
pipeline stage or profiled command alike — writes the attributed message
`mishell: <name>: <error>` (which contains the command name) to standard
error and terminates with exit code 127; the outcome is a process exit,
never a return into the parent's control flow or an execution. -/
theorem C7_exec_failure_exits_127 :
    ∀ (cmd name e : List Char) (args : List (List Char)),
      parse_args cmd = name :: args →
        pipeline_child cmd (some e) = ChildOutcome.exited 127 (errMsg name e)
        ∧ profile_child_exec (name :: args) (some e)
            = ChildOutcome.exited 127 (errMsg name e)
        ∧ (∃ s t, errMsg name e = s ++ name ++ t)
        ∧ (∀ a, pipeline_child cmd (some e) ≠ ChildOutcome.execs a) := by
  intro cmd name e args hp
  have h1 : pipeline_child cmd (some e) = ChildOutcome.exited 127 (errMsg name e) := by
    unfold pipeline_child
    rw [hp]
  refine ⟨h1, ?_, ⟨"mishell: ".data, ": ".data ++ e ++ ['\n'],
    by simp [errMsg, List.append_assoc]⟩, fun a => by rw [h1]; simp⟩
  simp [profile_child_exec]

/-- C7 witness: `C7_exec_failure_exits_127` for the unresolvable command
`ls` with a concrete `strerror` text. -/
theorem C7_witness :
    pipeline_child ['l', 's'] (some ['E'])
      = ChildOutcome.exited 127 (errMsg ['l', 's'] ['E'])
    ∧ profile_child_exec [['l', 's']] (some ['E'])
      = ChildOutcome.exited 127 (errMsg ['l', 's'] ['E'])
    ∧ (∃ s t, errMsg ['l', 's'] ['E'] = s ++ ['l', 's'] ++ t)
    ∧ (∀ a, pipeline_child ['l', 's'] (some ['E']) ≠ ChildOutcome.execs a) :=
  C7_exec_failure_exits_127 ['l', 's'] ['l', 's'] ['E'] [] (by decide)

/-! ## Claim C8 -/

/-- C8: if the `ejecsave` target fails to open, the parent reports the
failure (`perror`), writes nothing to the target or to standard output,
still closes and unlinks the temporary capture file (its content is
lost), and returns the already-reaped child's status unchanged — the
profiled command's execution is unaffected. -/
theorem C8_open_failure_cleanup :
    ∀ (prior cmdName captured summary : List Char) (st : WStatus),
      (run_profile_finish true false cmdName captured summary st).1
        = [OutAction.reportError openErrTag, OutAction.closeTmp,
           OutAction.unlinkTmp, OutAction.clearSlot]
      ∧ fileAfter prior (run_profile_finish true false cmdName captured summary st).1
          = prior
      ∧ (∀ b, OutAction.writeTarget b
          ∉ (run_profile_finish true false cmdName captured summary st).1)
      ∧ (∀ b, OutAction.writeStdout b
          ∉ (run_profile_finish true false cmdName captured summary st).1)
      ∧ OutAction.reportError openErrTag
          ∈ (run_profile_finish true false cmdName captured summary st).1
      ∧ OutAction.closeTmp ∈ (run_profile_finish true false cmdName captured summary st).1
      ∧ OutAction.unlinkTmp ∈ (run_profile_finish true false cmdName captured summary st).1
      ∧ (run_profile_finish true false cmdName captured summary st).2 = st := by
  intro prior cmdName captured summary st
  refine ⟨rfl, ?_, ?_, ?_, ?_, ?_, ?_, rfl⟩
  all_goals simp [run_profile_finish, fileAfter, targetWrites]

/-- C8 witness: `C8_open_failure_cleanup` on concrete contents. -/
theorem C8_witness :
    (run_profile_finish true false ['l', 's'] ['o'] ['s'] (WStatus.exited 0)).1
      = [OutAction.reportError openErrTag, OutAction.closeTmp,
         OutAction.unlinkTmp, OutAction.clearSlot]
    ∧ fileAfter ['x'] (run_profile_finish true false ['l', 's'] ['o'] ['s']
        (WStatus.exited 0)).1 = ['x']
    ∧ (∀ b, OutAction.writeTarget b
        ∉ (run_profile_finish true false ['l', 's'] ['o'] ['s'] (WStatus.exited 0)).1)
    ∧ (∀ b, OutAction.writeStdout b
        ∉ (run_profile_finish true false ['l', 's'] ['o'] ['s'] (WStatus.exited 0)).1)
    ∧ OutAction.reportError openErrTag
        ∈ (run_profile_finish true false ['l', 's'] ['o'] ['s'] (WStatus.exited 0)).1
    ∧ OutAction.closeTmp
        ∈ (run_profile_finish true false ['l', 's'] ['o'] ['s'] (WStatus.exited 0)).1
    ∧ OutAction.unlinkTmp
        ∈ (run_profile_finish true false ['l', 's'] ['o'] ['s'] (WStatus.exited 0)).1
    ∧ (run_profile_finish true false ['l', 's'] ['o'] ['s'] (WStatus.exited 0)).2
        = WStatus.exited 0 :=
  C8_open_failure_cleanup ['x'] ['l', 's'] ['o'] ['s'] (WStatus.exited 0)

/-! ## Claim C10 -/

/-- C10: `miprof maxtiempo <segs> <cmd>` with both arguments present
never prints a usage message, whatever `<segs>` holds — the dispatch
always reaches `run_and_profile` with `atoi(<segs>)`.  When that value is
zero or negative (any non-numeric string included, since `atoi` yields 0
for it), the profiler takes the plain blocking-wait path: no polling, no
kill, however long the child runs. -/
theorem C10_maxtiempo_nonpositive :
    ∀ (s c : List Char) (rest : List (List Char)) (T : Nat) (st : WStatus),
      atoi s ≤ 0 →
        miprof_dispatch ("maxtiempo".data :: s :: c :: rest)
          = MiprofDispatch.run (c :: rest) false none (atoi s)
        ∧ (∀ msg, miprof_dispatch ("maxtiempo".data :: s :: c :: rest)
            ≠ MiprofDispatch.usage msg)
        ∧ profile_wait T st (atoi s) = ([WaitAction.blockingWait], st)
        ∧ (∀ sig, WaitAction.killChild sig ∉ (profile_wait T st (atoi s)).1) := by
  intro s c rest T st hs
  have hd : miprof_dispatch ("maxtiempo".data :: s :: c :: rest)
      = MiprofDispatch.run (c :: rest) false none (atoi s) := rfl
  have hwait : profile_wait T st (atoi s) = ([WaitAction.blockingWait], st) := by
    unfold profile_wait
    rw [if_neg (by omega)]
  exact ⟨hd, fun msg => by rw [hd]; simp, hwait, fun sig => by rw [hwait]; simp⟩

/-- C10 witness: the non-numeric seconds string `"abc"` (for which `atoi`
yields 0) dispatches without a usage error, and the wait is one plain
blocking `waitpid` with no kill even for a child running 1000000
seconds. -/
theorem C10_witness :
    miprof_dispatch ("maxtiempo".data :: "abc".data :: "sleep".data :: [])
      = MiprofDispatch.run ["sleep".data] false none (atoi "abc".data)
    ∧ profile_wait 1000000 (WStatus.exited 0) (atoi "abc".data)
      = ([WaitAction.blockingWait], WStatus.exited 0)
    ∧ (∀ sig, WaitAction.killChild sig
        ∉ (profile_wait 1000000 (WStatus.exited 0) (atoi "abc".data)).1) := by
  have h := C10_maxtiempo_nonpositive ("abc".data) ("sleep".data) [] 1000000
    (WStatus.exited 0) (by decide)
  exact ⟨h.1, h.2.2.1, h.2.2.2⟩

end SimpleUnixShell
